import Mathlib

/-!
Shallow embedding of the powerdns client library (src/client.rs, src/error.rs,
src/server.rs, src/zones.rs). HTTP transport is modelled as a function from a
request to either a transport error or a response; response bodies are modelled
as optional JSON values (none standing for bytes that are not valid JSON).
Calls to unwrap in the source are modelled by a dedicated panic outcome.
-/

namespace PowerDNS

/-- JSON values, the wire format used by the API. Numbers are integers, which
covers every numeric field of this API (u32 serials, TTLs, timestamps). -/
inductive Json where
  | null : Json
  | bool (b : Bool) : Json
  | num (n : Int) : Json
  | str (s : String) : Json
  | arr (elems : List Json) : Json
  | obj (fields : List (String × Json)) : Json

/-- Field lookup in a JSON object; none on non-objects or absent keys. -/
def Json.lookup (j : Json) (k : String) : Option Json :=
  match j with
  | .obj fields => fields.lookup k
  | _ => none

/-- Decode a JSON string. -/
def Json.asString : Json → Except String String
  | .str s => .ok s
  | _ => .error "expected string"

/-- Decode a JSON boolean. -/
def Json.asBool : Json → Except String Bool
  | .bool b => .ok b
  | _ => .error "expected bool"

/-- Decode a JSON number as a Rust u32 (serde rejects out-of-range values). -/
def Json.asU32 : Json → Except String Nat
  | .num n => if 0 ≤ n ∧ n < 4294967296 then .ok n.toNat else .error "u32 out of range"
  | _ => .error "expected u32"

/-- Decode a JSON array elementwise. -/
def Json.asArr (f : Json → Except String α) : Json → Except String (List α)
  | .arr elems => elems.mapM f
  | _ => .error "expected array"

/-- Required struct field, as serde derive treats a non-Option field. -/
def reqField (j : Json) (k : String) (f : Json → Except String α) : Except String α :=
  match j.lookup k with
  | none => .error "missing field"
  | some v => f v

/-- Optional struct field, as serde derive treats an Option field: absent or
null decodes to none. -/
def optField (j : Json) (k : String) (f : Json → Except String α) :
    Except String (Option α) :=
  match j.lookup k with
  | none => .ok none
  | some .null => .ok none
  | some v => (f v).map some

/-- Error payload of the API, from src/error.rs (PowerDNSResponseError). -/
structure PowerDNSResponseError where
  error : String
  errors : Option (List String)
deriving Repr, DecidableEq

/-- Deserializer for PowerDNSResponseError, per its serde derive. -/
def PowerDNSResponseError.decode (j : Json) : Except String PowerDNSResponseError := do
  let error ← reqField j "error" Json.asString
  let errors ← optField j "errors" (Json.asArr Json.asString)
  return { error := error, errors := errors }

/-- Server metadata object, from src/server.rs. -/
structure Server where
  type_field : String
  id : String
  daemon_type : String
  version : String
  url : String
  config_url : String
  zones_url : String
deriving Repr, DecidableEq

/-- Deserializer for Server, per its serde derive (field type renamed). -/
def Server.decode (j : Json) : Except String Server := do
  let type_field ← reqField j "type" Json.asString
  let id ← reqField j "id" Json.asString
  let daemon_type ← reqField j "daemon_type" Json.asString
  let version ← reqField j "version" Json.asString
  let url ← reqField j "url" Json.asString
  let config_url ← reqField j "config_url" Json.asString
  let zones_url ← reqField j "zones_url" Json.asString
  return { type_field, id, daemon_type, version, url, config_url, zones_url }

/-- A single DNS record, from src/zones.rs. -/
structure Record where
  content : String
  disabled : Option Bool
deriving Repr, DecidableEq

/-- Deserializer for Record. -/
def Record.decode (j : Json) : Except String Record := do
  let content ← reqField j "content" Json.asString
  let disabled ← optField j "disabled" Json.asBool
  return { content, disabled }

/-- Serializer for Record; skip_serializing_none omits a none field. -/
def Record.encode (r : Record) : Json :=
  .obj ([("content", .str r.content)] ++
    (match r.disabled with
     | some b => [("disabled", .bool b)]
     | none => []))

/-- A comment about an RRSet, from src/zones.rs. -/
structure Comment where
  content : String
  account : String
  modified_at : Nat
deriving Repr, DecidableEq

/-- Deserializer for Comment. -/
def Comment.decode (j : Json) : Except String Comment := do
  let content ← reqField j "content" Json.asString
  let account ← reqField j "account" Json.asString
  let modified_at ← reqField j "modified_at" Json.asU32
  return { content, account, modified_at }

/-- Serializer for Comment. -/
def Comment.encode (c : Comment) : Json :=
  .obj [("content", .str c.content), ("account", .str c.account),
        ("modified_at", .num c.modified_at)]

/-- A resource record set, from src/zones.rs. -/
structure RRSet where
  name : String
  type_field : String
  ttl : Nat
  changetype : Option String
  records : List Record
  comments : Option (List Comment)
deriving Repr, DecidableEq

/-- Deserializer for RRSet (field type renamed, skip_serializing_none). -/
def RRSet.decode (j : Json) : Except String RRSet := do
  let name ← reqField j "name" Json.asString
  let type_field ← reqField j "type" Json.asString
  let ttl ← reqField j "ttl" Json.asU32
  let changetype ← optField j "changetype" Json.asString
  let records ← reqField j "records" (Json.asArr Record.decode)
  let comments ← optField j "comments" (Json.asArr Comment.decode)
  return { name, type_field, ttl, changetype, records, comments }

/-- Serializer for RRSet; none fields are omitted (skip_serializing_none). -/
def RRSet.encode (r : RRSet) : Json :=
  .obj ([("name", .str r.name), ("type", .str r.type_field), ("ttl", .num r.ttl)] ++
    (match r.changetype with
     | some ct => [("changetype", .str ct)]
     | none => []) ++
    [("records", .arr (r.records.map Record.encode))] ++
    (match r.comments with
     | some cs => [("comments", .arr (cs.map Comment.encode))]
     | none => []))

/-- Zone kind enum, from src/zones.rs; serde renders unit variants as strings. -/
inductive ZoneKind where
  | Native : ZoneKind
  | Master : ZoneKind
  | Slave : ZoneKind
deriving Repr, DecidableEq

/-- Deserializer for ZoneKind. -/
def ZoneKind.decode : Json → Except String ZoneKind
  | .str "Native" => .ok .Native
  | .str "Master" => .ok .Master
  | .str "Slave" => .ok .Slave
  | _ => .error "expected zone kind"

/-- An authoritative DNS zone, from src/zones.rs. Every field is optional. -/
structure Zone where
  id : Option String
  name : Option String
  type_field : Option String
  url : Option String
  kind : Option ZoneKind
  rrsets : Option (List RRSet)
  serial : Option Nat
  notified_serial : Option Nat
  edited_serial : Option Nat
  masters : Option (List String)
  dnssec : Option Bool
  nsec3param : Option String
  nsec3narrow : Option Bool
  presigned : Option Bool
  soa_edit : Option String
  soa_edit_api : Option String
  api_rectify : Option Bool
  zone : Option String
  account : Option String
  nameservers : Option (List String)
  master_tsig_key_ids : Option (List String)
  slave_tsig_key_ids : Option (List String)
deriving Repr, DecidableEq

/-- Deserializer for Zone, per its serde derive (field type renamed). -/
def Zone.decode (j : Json) : Except String Zone := do
  let id ← optField j "id" Json.asString
  let name ← optField j "name" Json.asString
  let type_field ← optField j "type" Json.asString
  let url ← optField j "url" Json.asString
  let kind ← optField j "kind" ZoneKind.decode
  let rrsets ← optField j "rrsets" (Json.asArr RRSet.decode)
  let serial ← optField j "serial" Json.asU32
  let notified_serial ← optField j "notified_serial" Json.asU32
  let edited_serial ← optField j "edited_serial" Json.asU32
  let masters ← optField j "masters" (Json.asArr Json.asString)
  let dnssec ← optField j "dnssec" Json.asBool
  let nsec3param ← optField j "nsec3param" Json.asString
  let nsec3narrow ← optField j "nsec3narrow" Json.asBool
  let presigned ← optField j "presigned" Json.asBool
  let soa_edit ← optField j "soa_edit" Json.asString
  let soa_edit_api ← optField j "soa_edit_api" Json.asString
  let api_rectify ← optField j "api_rectify" Json.asBool
  let zone ← optField j "zone" Json.asString
  let account ← optField j "account" Json.asString
  let nameservers ← optField j "nameservers" (Json.asArr Json.asString)
  let master_tsig_key_ids ← optField j "master_tsig_key_ids" (Json.asArr Json.asString)
  let slave_tsig_key_ids ← optField j "slave_tsig_key_ids" (Json.asArr Json.asString)
  return { id, name, type_field, url, kind, rrsets, serial, notified_serial,
           edited_serial, masters, dnssec, nsec3param, nsec3narrow, presigned,
           soa_edit, soa_edit_api, api_rectify, zone, account, nameservers,
           master_tsig_key_ids, slave_tsig_key_ids }

/-- The Zone value whose fields are all none; what decoding an empty JSON
object yields. -/
def emptyZone : Zone :=
  { id := none, name := none, type_field := none, url := none, kind := none,
    rrsets := none, serial := none, notified_serial := none,
    edited_serial := none, masters := none, dnssec := none, nsec3param := none,
    nsec3narrow := none, presigned := none, soa_edit := none,
    soa_edit_api := none, api_rectify := none, zone := none, account := none,
    nameservers := none, master_tsig_key_ids := none,
    slave_tsig_key_ids := none }

/-- PATCH request body, from src/zones.rs (PatchZone). -/
structure PatchZone where
  rrsets : List RRSet
deriving Repr, DecidableEq

/-- Serializer for PatchZone. -/
def PatchZone.encode (p : PatchZone) : Json :=
  .obj [("rrsets", .arr (p.rrsets.map RRSet.encode))]

/-- HTTP request method; the three methods the library issues. -/
inductive Method where
  | GET : Method
  | DELETE : Method
  | PATCH : Method
deriving Repr, DecidableEq

/-- An outgoing HTTP request: method, full URL, optional JSON body. -/
structure HttpRequest where
  method : Method
  url : String
  body : Option Json

/-- An incoming HTTP response: numeric status code and body. A body of none
models bytes that are not valid JSON. -/
structure HttpResponse where
  status : Nat
  body : Option Json

/-- Transport-layer errors, modelling reqwest::Error: a failure of send
(connection, timeout) or a failure of the json body decoder. -/
inductive ReqwestError where
  | connect (msg : String) : ReqwestError
  | decode (msg : String) : ReqwestError
deriving Repr, DecidableEq

/-- The HTTP transport: one request in, a transport error or a response out. -/
def Transport : Type := HttpRequest → Except ReqwestError HttpResponse

/-- Model of resp.json::<T>() in reqwest: invalid JSON bytes or a schema
mismatch both surface as a reqwest decode error. -/
def HttpResponse.jsonAs (r : HttpResponse) (dec : Json → Except String α) :
    Except ReqwestError α :=
  match r.body with
  | none => .error (.decode "invalid json body")
  | some j =>
    match dec j with
    | .ok a => .ok a
    | .error msg => .error (.decode msg)

/-- Model of reqwest StatusCode::is_success: 2xx statuses. -/
def statusIsSuccess (s : Nat) : Bool :=
  200 ≤ s && s < 300

/-- The error enum of src/error.rs. The From conversions of the source
(PowerDNSResponseError, reqwest::Error, serde_json::Error) map onto the
constructor arguments. -/
inductive Error where
  | PowerDNS (e : PowerDNSResponseError) : Error
  | RequestError (e : ReqwestError) : Error
  | UnexpectedStatusCode (status : Nat) : Error
  | DeserializeError (msg : String) : Error
  | Other (msg : String) : Error
deriving Repr, DecidableEq

/-- Result of running one operation: an Ok value, an Err value of the error
enum, or a panic (a Rust unwrap on an Err). -/
inductive Outcome (α : Type) where
  | ok (a : α) : Outcome α
  | err (e : Error) : Outcome α
  | panic : Outcome α
deriving Repr

/-- Client configuration, from src/client.rs: base URL and server name. The
HTTP transport (with its fixed headers) is passed to each operation. -/
structure Client where
  base_url : String
  server_name : String

/-- Sub-client for server operations, from src/server.rs. -/
structure ServerClient where
  api_client : Client

/-- Sub-client for zone operations, from src/zones.rs. -/
structure ZoneClient where
  api_client : Client

/-- Client::server factory. -/
def Client.server (c : Client) : ServerClient := ⟨c⟩

/-- Client::zone factory. -/
def Client.zone (c : Client) : ZoneClient := ⟨c⟩

/-- ServerClient::list. The source unwraps the send result and unwraps the
success-body deserialization; the error body parse propagates with the
question-mark operator. -/
def ServerClient.list (self : ServerClient) (send : Transport) :
    Outcome (List Server) :=
  match send { method := .GET,
               url := self.api_client.base_url ++ "/api/v1/servers",
               body := none } with
  | .error _ => .panic
  | .ok resp =>
    if statusIsSuccess resp.status then
      match resp.jsonAs (Json.asArr Server.decode) with
      | .ok servers => .ok servers
      | .error _ => .panic
    else
      match resp.jsonAs PowerDNSResponseError.decode with
      | .ok e => .err (.PowerDNS e)
      | .error e => .err (.RequestError e)

/-- ServerClient::get. Same unwrap structure as ServerClient::list. -/
def ServerClient.get (self : ServerClient) (server_id : String)
    (send : Transport) : Outcome Server :=
  match send { method := .GET,
               url := self.api_client.base_url ++ "/api/v1/servers/" ++ server_id,
               body := none } with
  | .error _ => .panic
  | .ok resp =>
    if statusIsSuccess resp.status then
      match resp.jsonAs Server.decode with
      | .ok server => .ok server
      | .error _ => .panic
    else
      match resp.jsonAs PowerDNSResponseError.decode with
      | .ok e => .err (.PowerDNS e)
      | .error e => .err (.RequestError e)

/-- True when the last character of a string is a dot; models the Rust call
ends_with on a single character. -/
def endsWithDot (s : String) : Bool :=
  s.data.getLast? == some '.'

/-- Drop one trailing dot when present; a fully-qualified form and its
undotted form validate alike. -/
def stripDot (s : String) : String :=
  if endsWithDot s then ⟨s.data.dropLast⟩ else s

/-- Split a character list at every dot; mirrors label splitting of a domain
name, with empty labels preserved. -/
def splitDots : List Char → List (List Char)
  | [] => [[]]
  | c :: cs =>
    if c = '.' then [] :: splitDots cs
    else
      match splitDots cs with
      | [] => [[c]]
      | l :: ls => (c :: l) :: ls

/-- Join labels back with dots; inverse direction of splitDots. -/
def joinDots : List (List Char) → List Char
  | [] => []
  | [l] => l
  | l :: l2 :: ls => l ++ '.' :: joinDots (l2 :: ls)

/-- Modelled from the spec: character set of a domain-name label in the
external addr crate (a dependency whose source is not part of this
repository). Per the spec, section 4.4, an input must parse as a domain name;
labels follow the letter-digit-hyphen rule. -/
def labelCharOk (c : Char) : Bool :=
  c.isAlphanum || c == '-'

/-- Modelled from the spec: a single label is nonempty, at most 63 characters,
made of letter-digit-hyphen characters, and starts and ends alphanumeric. -/
def labelOk (l : List Char) : Bool :=
  decide (0 < l.length) && decide (l.length ≤ 63) && l.all labelCharOk &&
  (match l.head? with
   | some c => c.isAlphanum
   | none => false) &&
  (match l.getLast? with
   | some c => c.isAlphanum
   | none => false)

/-- Modelled from the spec: syntactic validity of a domain name once an
optional trailing dot is removed: nonempty, at most 253 characters, every
label valid. -/
def validCore (t : String) : Bool :=
  decide (0 < t.data.length) && decide (t.data.length ≤ 253) &&
  (splitDots t.data).all labelOk

/-- Modelled from the spec: a finite sample of the public suffix list that the
external addr crate consults. It contains the suffixes the spec mentions and
omits zzzzz, which the spec calls unrecognized. -/
def pslSample : List String :=
  ["com", "net", "org", "io", "uk", "co.uk", "rs"]

/-- Modelled from the spec: whether the domain (trailing dot removed) ends in
a recognized public suffix, checking the last one or two labels against the
sample list. -/
def suffixKnown (t : String) : Bool :=
  let ls := splitDots t.data
  pslSample.contains ⟨joinDots (ls.drop (ls.length - 1))⟩ ||
  pslSample.contains ⟨joinDots (ls.drop (ls.length - 2))⟩

/-- Modelled from the spec: the parsed domain name returned by the external
addr crate; as_str returns the original input unchanged. -/
structure DomainName where
  as_str : String

/-- Modelled from the spec: parse_domain_name of the external addr crate.
Accepts a syntactically valid domain name, with one optional trailing dot,
and keeps the input verbatim. -/
def parse_domain_name (name : String) : Except Unit DomainName :=
  if validCore (stripDot name) then .ok ⟨name⟩ else .error ()

/-- Modelled from the spec: has_known_suffix of the external addr crate. -/
def DomainName.has_known_suffix (d : DomainName) : Bool :=
  suffixKnown (stripDot d.as_str)

/-- canonicalize_domain of src/zones.rs: parse, require a known suffix,
append a trailing dot when absent. -/
def canonicalize_domain (domain : String) : Except Unit String :=
  match parse_domain_name domain with
  | .error _ => .error ()
  | .ok parsed =>
    let root := parsed.as_str
    if !parsed.has_known_suffix then .error ()
    else if !endsWithDot root then .ok (root ++ ".")
    else .ok root

/-- ZoneClient::list. The send result is unwrapped (panic on transport
failure); both body parses propagate with the question-mark operator. -/
def ZoneClient.list (self : ZoneClient) (send : Transport) :
    Outcome (List Zone) :=
  match send { method := .GET,
               url := self.api_client.base_url ++ "/api/v1/servers/" ++
                      self.api_client.server_name ++ "/zones",
               body := none } with
  | .error _ => .panic
  | .ok resp =>
    if statusIsSuccess resp.status then
      match resp.jsonAs (Json.asArr Zone.decode) with
      | .ok zones => .ok zones
      | .error e => .err (.RequestError e)
    else
      match resp.jsonAs PowerDNSResponseError.decode with
      | .ok e => .err (.PowerDNS e)
      | .error e => .err (.RequestError e)

/-- ZoneClient::get. The canonicalization result is unwrapped (panic on an
invalid domain, before the transport is consulted), as is the send result. -/
def ZoneClient.get (self : ZoneClient) (zone_id : String) (send : Transport) :
    Outcome Zone :=
  match canonicalize_domain zone_id with
  | .error _ => .panic
  | .ok zid =>
    match send { method := .GET,
                 url := self.api_client.base_url ++ "/api/v1/servers/" ++
                        self.api_client.server_name ++ "/zones/" ++ zid,
                 body := none } with
    | .error _ => .panic
    | .ok resp =>
      if statusIsSuccess resp.status then
        match resp.jsonAs Zone.decode with
        | .ok zone => .ok zone
        | .error e => .err (.RequestError e)
      else
        match resp.jsonAs PowerDNSResponseError.decode with
        | .ok e => .err (.PowerDNS e)
        | .error e => .err (.RequestError e)

/-- ZoneClient::delete. Same unwrap structure as ZoneClient::get; success is
the unit value with the body ignored. -/
def ZoneClient.delete (self : ZoneClient) (zone_id : String)
    (send : Transport) : Outcome Unit :=
  match canonicalize_domain zone_id with
  | .error _ => .panic
  | .ok zid =>
    match send { method := .DELETE,
                 url := self.api_client.base_url ++ "/api/v1/servers/" ++
                        self.api_client.server_name ++ "/zones/" ++ zid,
                 body := none } with
    | .error _ => .panic
    | .ok resp =>
      if statusIsSuccess resp.status then .ok ()
      else
        match resp.jsonAs PowerDNSResponseError.decode with
        | .ok e => .err (.PowerDNS e)
        | .error e => .err (.RequestError e)

/-- ZoneClient::patch. No canonicalization; the send result propagates with
the question-mark operator; the status code is dispatched exactly: 204
success, the four documented error codes parse the body, anything else is an
unexpected status carrying the raw code. -/
def ZoneClient.patch (self : ZoneClient) (zone_id : String) (zone : PatchZone)
    (send : Transport) : Outcome Unit :=
  match send { method := .PATCH,
               url := self.api_client.base_url ++ "/api/v1/servers/" ++
                      self.api_client.server_name ++ "/zones/" ++ zone_id,
               body := some (PatchZone.encode zone) } with
  | .error e => .err (.RequestError e)
  | .ok response =>
    if response.status = 204 then .ok ()
    else if response.status = 400 ∨ response.status = 404 ∨
            response.status = 422 ∨ response.status = 500 then
      match response.jsonAs PowerDNSResponseError.decode with
      | .ok e => .err (.PowerDNS e)
      | .error e => .err (.RequestError e)
    else .err (.UnexpectedStatusCode response.status)

/-- Characters needing no percent-encoding in a URL path segment: the
unreserved set of RFC 3986. -/
def urlPathSegmentSafe (c : Char) : Bool :=
  c.isAlphanum || c == '-' || c == '.' || c == '_' || c == '~'

/-- A transport that always fails at the connection level. -/
def failSend : Transport := fun _ => .error (.connect "connection refused")

/-- A transport that always returns the given response. -/
def constSend (r : HttpResponse) : Transport := fun _ => .ok r

/-- A transport that fails while echoing the request URL, exposing the URL an
operation would contact. -/
def echoUrlSend : Transport := fun req => .error (.connect req.url)

/-- A concrete client configuration used for witnesses. -/
def testClient : Client := ⟨"http://localhost:8081", "localhost"⟩

/-- The zone sub-client of the test client. -/
def testZoneClient : ZoneClient := testClient.zone

/-- The server sub-client of the test client. -/
def testServerClient : ServerClient := testClient.server

theorem string_data_append (s t : String) : (s ++ t).data = s.data ++ t.data := rfl

theorem endsWithDot_append_dot (s : String) : endsWithDot (s ++ ".") = true := by
  unfold endsWithDot
  rw [string_data_append]
  simp [List.getLast?_concat]

theorem stripDot_append_dot (s : String) : stripDot (s ++ ".") = s := by
  unfold stripDot
  rw [endsWithDot_append_dot]
  simp only [if_pos]
  rw [string_data_append]
  show String.mk (List.dropLast (s.data ++ ['.'])) = s
  rw [List.dropLast_concat]

theorem stripDot_of_not_dot (s : String) (h : endsWithDot s = false) :
    stripDot s = s := by
  unfold stripDot
  rw [h]
  simp

/-- One unfolding of canonicalize_domain into its three tests. -/
theorem canonicalize_domain_eq (x : String) :
    canonicalize_domain x =
      (if validCore (stripDot x) then
        if suffixKnown (stripDot x) then
          if endsWithDot x then Except.ok x else Except.ok (x ++ ".")
        else Except.error ()
      else Except.error ()) := by
  unfold canonicalize_domain parse_domain_name DomainName.has_known_suffix
  by_cases h1 : validCore (stripDot x)
  · by_cases h2 : suffixKnown (stripDot x)
    · by_cases h3 : endsWithDot x <;> simp [h1, h2, h3]
    · simp [h1, h2]
  · simp [h1]

/-- Success of canonicalization entails the two validity tests. -/
theorem canonicalize_valid (x y : String)
    (h : canonicalize_domain x = Except.ok y) :
    validCore (stripDot x) = true ∧ suffixKnown (stripDot x) = true := by
  rw [canonicalize_domain_eq] at h
  by_cases h1 : validCore (stripDot x)
  · by_cases h2 : suffixKnown (stripDot x)
    · exact ⟨h1, h2⟩
    · simp [h1, h2] at h
  · simp [h1] at h

/-- The output of canonicalization is the input, with a dot appended exactly
when the input lacks one. -/
theorem canonicalize_cases (x y : String)
    (h : canonicalize_domain x = Except.ok y) :
    (endsWithDot x = true ∧ y = x) ∨ (endsWithDot x = false ∧ y = x ++ ".") := by
  rw [canonicalize_domain_eq] at h
  by_cases h1 : validCore (stripDot x)
  · by_cases h2 : suffixKnown (stripDot x)
    · by_cases h3 : endsWithDot x
      · left
        refine ⟨h3, ?_⟩
        simp [h1, h2, h3] at h
        exact h.symm
      · right
        refine ⟨by simpa using h3, ?_⟩
        simp [h1, h2, h3] at h
        exact h.symm
    · simp [h1, h2] at h
  · simp [h1] at h

/-- splitDots always yields at least one label. -/
theorem splitDots_ne_nil (cs : List Char) : splitDots cs ≠ [] := by
  induction cs with
  | nil => simp [splitDots]
  | cons d ds ih =>
    unfold splitDots
    by_cases hd : d = '.'
    · simp [hd]
    · simp only [if_neg hd]
      cases heq : splitDots ds with
      | nil => simp
      | cons l ls => simp

/-- Every character of a list is a dot or lies in one of its dot-split
labels. -/
theorem mem_splitDots (c : Char) (cs : List Char) (h : c ∈ cs) :
    c = '.' ∨ ∃ l ∈ splitDots cs, c ∈ l := by
  induction cs with
  | nil => simp at h
  | cons d ds ih =>
    unfold splitDots
    by_cases hd : d = '.'
    · rcases List.mem_cons.mp h with rfl | hmem
      · left; exact hd
      · rcases ih hmem with hdot | ⟨l, hl, hcl⟩
        · left; exact hdot
        · right
          exact ⟨l, by simp [hd, hl], hcl⟩
    · simp only [if_neg hd]
      cases heq : splitDots ds with
      | nil => exact absurd heq (splitDots_ne_nil ds)
      | cons l ls =>
        rcases List.mem_cons.mp h with rfl | hmem
        · right; exact ⟨c :: l, by simp, by simp⟩
        · rcases ih hmem with hdot | ⟨l2, hl2, hcl2⟩
          · left; exact hdot
          · rw [heq] at hl2
            rcases List.mem_cons.mp hl2 with rfl | hl2s
            · right; exact ⟨d :: l2, by simp, by simp [hcl2]⟩
            · right; exact ⟨l2, by simp [hl2s], hcl2⟩

/-- In a syntactically valid domain every character is a label character or a
dot. -/
theorem validCore_chars (t : String) (h : validCore t = true) :
    ∀ c ∈ t.data, labelCharOk c = true ∨ c = '.' := by
  intro c hc
  rcases mem_splitDots c t.data hc with hdot | ⟨l, hl, hcl⟩
  · right; exact hdot
  · left
    unfold validCore at h
    simp only [Bool.and_eq_true] at h
    have hall := h.2
    rw [List.all_eq_true] at hall
    have hlab := hall l hl
    unfold labelOk at hlab
    simp only [Bool.and_eq_true] at hlab
    have hchars := hlab.1.1.2
    rw [List.all_eq_true] at hchars
    exact hchars c hcl

/-- Every character of a string is a character of its dot-stripped form or a
dot. -/
theorem mem_data_stripDot (s : String) (c : Char) (hc : c ∈ s.data) :
    c ∈ (stripDot s).data ∨ c = '.' := by
  unfold stripDot
  by_cases h : endsWithDot s
  · rw [if_pos h]
    unfold endsWithDot at h
    have hlast : s.data.getLast? = some '.' := by simpa using h
    have hne : s.data ≠ [] := by
      intro h0
      rw [h0] at hlast
      simp at hlast
    have hg : s.data.getLast hne = '.' := by
      have := List.getLast?_eq_getLast s.data hne
      rw [this] at hlast
      exact Option.some_injective _ hlast
    have hsplit := List.dropLast_append_getLast hne
    rw [hg] at hsplit
    rw [← hsplit] at hc
    rcases List.mem_append.mp hc with hmem | hmem
    · left; exact hmem
    · right; simpa using hmem
  · rw [if_neg h]
    left; exact hc

/-- Letter-digit-hyphen characters need no percent-encoding in a path
segment. -/
theorem labelCharOk_safe (c : Char) (h : labelCharOk c = true) :
    urlPathSegmentSafe c = true := by
  unfold labelCharOk at h
  unfold urlPathSegmentSafe
  rcases Bool.or_eq_true_iff.mp h with h1 | h1 <;> simp [h1]

/-- Claim C6: canonicalization is idempotent: when canonicalize_domain
succeeds on x, applying it to the output succeeds and returns that output
unchanged. -/
theorem canonicalize_domain_idempotent (x y : String)
    (h : canonicalize_domain x = Except.ok y) :
    canonicalize_domain y = Except.ok y := by
  obtain ⟨h1, h2⟩ := canonicalize_valid x y h
  rcases canonicalize_cases x y h with ⟨hd, rfl⟩ | ⟨hd, rfl⟩
  · rw [canonicalize_domain_eq]
    simp [h1, h2, hd]
  · have hx : stripDot x = x := stripDot_of_not_dot x hd
    rw [hx] at h1 h2
    rw [canonicalize_domain_eq, stripDot_append_dot, endsWithDot_append_dot]
    simp [h1, h2]

/-- Witness for claim C6 at the input example.com. -/
theorem canonicalize_domain_idempotent_witness :
    canonicalize_domain "example.com" = Except.ok "example.com." ∧
    canonicalize_domain "example.com." = Except.ok "example.com." :=
  ⟨rfl, canonicalize_domain_idempotent "example.com" "example.com." rfl⟩

/-- Claim C7: canonicalize_domain maps example.com to example.com. with a
trailing dot, leaves example.com. unchanged, and accepts the subdomain
sub.example.com, appending the trailing dot. -/
theorem canonicalize_domain_examples :
    canonicalize_domain "example.com" = Except.ok "example.com." ∧
    canonicalize_domain "example.com." = Except.ok "example.com." ∧
    canonicalize_domain "sub.example.com" = Except.ok "sub.example.com." :=
  ⟨rfl, rfl, rfl⟩

/-- Claim C10: a successful canonicalization returns the input unchanged
except for at most one appended trailing dot, appended exactly when the input
does not already end with a dot; no character is altered or removed. -/
theorem canonicalize_domain_appends_dot_only (x y : String)
    (h : canonicalize_domain x = Except.ok y) :
    (endsWithDot x = true ∧ y = x) ∨ (endsWithDot x = false ∧ y = x ++ ".") :=
  canonicalize_cases x y h

/-- Witness for claim C10 at the input example.com. -/
theorem canonicalize_domain_appends_dot_only_witness :
    canonicalize_domain "example.com" = Except.ok "example.com." ∧
    ((endsWithDot "example.com" = true ∧ "example.com." = "example.com") ∨
     (endsWithDot "example.com" = false ∧ "example.com." = "example.com" ++ ".")) :=
  ⟨rfl, canonicalize_domain_appends_dot_only "example.com" "example.com." rfl⟩

/-- Claim C3: every input accepted by canonicalize_domain, and hence every
returned canonical domain, contains only characters that are safe in a URL
path segment; an input with an unsafe character is rejected, since acceptance
would place that character in the all-safe output. -/
theorem canonicalize_domain_url_safe (x y : String)
    (h : canonicalize_domain x = Except.ok y) :
    x.data.all urlPathSegmentSafe = true ∧
    y.data.all urlPathSegmentSafe = true := by
  obtain ⟨h1, -⟩ := canonicalize_valid x y h
  have hx : ∀ c ∈ x.data, urlPathSegmentSafe c = true := by
    intro c hc
    rcases mem_data_stripDot x c hc with h2 | rfl
    · rcases validCore_chars _ h1 c h2 with h3 | rfl
      · exact labelCharOk_safe c h3
      · decide
    · decide
  have hxall : x.data.all urlPathSegmentSafe = true := List.all_eq_true.mpr hx
  refine ⟨hxall, ?_⟩
  rcases canonicalize_cases x y h with ⟨-, rfl⟩ | ⟨-, rfl⟩
  · exact hxall
  · rw [string_data_append, List.all_append, hxall]
    decide

/-- Witness for claim C3 at the input example.com. -/
theorem canonicalize_domain_url_safe_witness :
    canonicalize_domain "example.com" = Except.ok "example.com." ∧
    ("example.com").data.all urlPathSegmentSafe = true ∧
    ("example.com.").data.all urlPathSegmentSafe = true := by
  have h := canonicalize_domain_url_safe "example.com" "example.com." rfl
  exact ⟨rfl, h.1, h.2⟩

/-- A 204 response with an empty body. -/
def resp204 : HttpResponse := ⟨204, none⟩

/-- A 400 response whose body is the error object with message conflict. -/
def resp400 : HttpResponse := ⟨400, some (Json.obj [("error", Json.str "conflict")])⟩

/-- A 418 response whose body is the error object with message teapot. -/
def resp418 : HttpResponse := ⟨418, some (Json.obj [("error", Json.str "teapot")])⟩

/-- Computation rule for patch against a fixed response. -/
theorem patch_constSend (zc : ZoneClient) (zid : String) (z : PatchZone)
    (resp : HttpResponse) :
    ZoneClient.patch zc zid z (constSend resp) =
      (if resp.status = 204 then Outcome.ok ()
       else if resp.status = 400 ∨ resp.status = 404 ∨
               resp.status = 422 ∨ resp.status = 500 then
         match resp.jsonAs PowerDNSResponseError.decode with
         | Except.ok e => Outcome.err (Error.PowerDNS e)
         | Except.error e => Outcome.err (Error.RequestError e)
       else Outcome.err (Error.UnexpectedStatusCode resp.status)) := rfl

/-- Claim C1: ZoneClient patch dispatches on the exact status code: 204 gives
success regardless of body; each of 400, 404, 422 and 500 gives the
structured server error parsed from the body; any other status gives an
unexpected-status error carrying that raw status code. -/
theorem patch_status_dispatch (zc : ZoneClient) (zid : String) (z : PatchZone)
    (resp : HttpResponse) :
    (resp.status = 204 →
      ZoneClient.patch zc zid z (constSend resp) = Outcome.ok ()) ∧
    (∀ pe, (resp.status = 400 ∨ resp.status = 404 ∨
            resp.status = 422 ∨ resp.status = 500) →
      resp.jsonAs PowerDNSResponseError.decode = Except.ok pe →
      ZoneClient.patch zc zid z (constSend resp) =
        Outcome.err (Error.PowerDNS pe)) ∧
    (resp.status ≠ 204 → resp.status ≠ 400 → resp.status ≠ 404 →
     resp.status ≠ 422 → resp.status ≠ 500 →
      ZoneClient.patch zc zid z (constSend resp) =
        Outcome.err (Error.UnexpectedStatusCode resp.status)) := by
  rw [patch_constSend]
  refine ⟨?_, ?_, ?_⟩
  · intro h204
    simp [h204]
  · intro pe hknown hdec
    have hne : resp.status ≠ 204 := by rcases hknown with h | h | h | h <;> omega
    rw [if_neg hne, if_pos hknown, hdec]
  · intro h204 h400 h404 h422 h500
    rw [if_neg h204, if_neg (by simp [h400, h404, h422, h500])]

/-- Witness for claim C1 at the statuses 204, 400 and 418. -/
theorem patch_status_dispatch_witness :
    ZoneClient.patch testZoneClient "example.com" ⟨[]⟩ (constSend resp204) =
      Outcome.ok () ∧
    ZoneClient.patch testZoneClient "example.com" ⟨[]⟩ (constSend resp400) =
      Outcome.err (Error.PowerDNS ⟨"conflict", none⟩) ∧
    ZoneClient.patch testZoneClient "example.com" ⟨[]⟩ (constSend resp418) =
      Outcome.err (Error.UnexpectedStatusCode 418) := by
  refine ⟨(patch_status_dispatch testZoneClient "example.com" ⟨[]⟩ resp204).1 rfl,
          (patch_status_dispatch testZoneClient "example.com" ⟨[]⟩ resp400).2.1
            ⟨"conflict", none⟩ (Or.inl rfl) rfl,
          ?_⟩
  have h := (patch_status_dispatch testZoneClient "example.com" ⟨[]⟩ resp418).2.2
    (by decide) (by decide) (by decide) (by decide) (by decide)
  exact h

/-- Claim C2 counterexample: on the invalid domain the spec names, get and
delete panic via unwrap; the outcome is a panic, not an error value of the
library error enum (which has no InvalidDomain variant at all). -/
theorem get_invalid_domain_counterexample :
    ZoneClient.get testZoneClient "invalidtld.zzzzz" failSend = Outcome.panic ∧
    ZoneClient.delete testZoneClient "invalidtld.zzzzz" failSend = Outcome.panic :=
  ⟨rfl, rfl⟩

/-- Claim C2 amended: when canonicalization rejects the zone id, get and
delete panic before any network call is issued: the outcome is a panic, the
same for every transport. -/
theorem get_delete_invalid_domain_panics (zc : ZoneClient) (zid : String)
    (send : Transport) (h : canonicalize_domain zid = Except.error ()) :
    ZoneClient.get zc zid send = Outcome.panic ∧
    ZoneClient.delete zc zid send = Outcome.panic := by
  unfold ZoneClient.get ZoneClient.delete
  rw [h]
  exact ⟨rfl, rfl⟩

/-- Witness for the amended claim C2 at the input invalidtld.zzzzz. -/
theorem get_delete_invalid_domain_panics_witness :
    canonicalize_domain "invalidtld.zzzzz" = Except.error () ∧
    ZoneClient.get testZoneClient "invalidtld.zzzzz" failSend = Outcome.panic :=
  ⟨rfl, (get_delete_invalid_domain_panics testZoneClient "invalidtld.zzzzz"
          failSend rfl).1⟩

/-- Claim C4 counterexample: zone delete on a 418 response with a parseable
error body returns the structured server error, indistinguishable from a
known-code server error, instead of an unexpected-status error. -/
theorem delete_unknown_status_counterexample :
    ZoneClient.delete testZoneClient "example.com" (constSend resp418) =
      Outcome.err (Error.PowerDNS ⟨"teapot", none⟩) := rfl

/-- Claim C4 amended: only patch surfaces a status outside its table as an
unexpected-status error; server list and get and zone list, get and delete
treat every non-success status uniformly, returning the parsed body as a
structured server error whenever it parses and a RequestError when it does
not. -/
theorem unknown_status_dispatch (zc : ZoneClient) (sc : ServerClient)
    (zid : String) (z : PatchZone) (resp : HttpResponse)
    (hns : statusIsSuccess resp.status = false) :
    (resp.status ≠ 204 → resp.status ≠ 400 → resp.status ≠ 404 →
     resp.status ≠ 422 → resp.status ≠ 500 →
      ZoneClient.patch zc zid z (constSend resp) =
        Outcome.err (Error.UnexpectedStatusCode resp.status)) ∧
    (∀ pe, resp.jsonAs PowerDNSResponseError.decode = Except.ok pe →
      ServerClient.list sc (constSend resp) =
        Outcome.err (Error.PowerDNS pe) ∧
      (∀ sid, ServerClient.get sc sid (constSend resp) =
        Outcome.err (Error.PowerDNS pe)) ∧
      ZoneClient.list zc (constSend resp) =
        Outcome.err (Error.PowerDNS pe) ∧
      (∀ czid, canonicalize_domain zid = Except.ok czid →
        ZoneClient.get zc zid (constSend resp) =
          Outcome.err (Error.PowerDNS pe) ∧
        ZoneClient.delete zc zid (constSend resp) =
          Outcome.err (Error.PowerDNS pe))) ∧
    (∀ em, resp.jsonAs PowerDNSResponseError.decode = Except.error em →
      ServerClient.list sc (constSend resp) =
        Outcome.err (Error.RequestError em) ∧
      (∀ sid, ServerClient.get sc sid (constSend resp) =
        Outcome.err (Error.RequestError em)) ∧
      ZoneClient.list zc (constSend resp) =
        Outcome.err (Error.RequestError em) ∧
      (∀ czid, canonicalize_domain zid = Except.ok czid →
        ZoneClient.get zc zid (constSend resp) =
          Outcome.err (Error.RequestError em) ∧
        ZoneClient.delete zc zid (constSend resp) =
          Outcome.err (Error.RequestError em))) := by
  refine ⟨?_, ?_, ?_⟩
  · intro h204 h400 h404 h422 h500
    rw [patch_constSend]
    rw [if_neg h204, if_neg (by simp [h400, h404, h422, h500])]
  · intro pe hpe
    refine ⟨?_, fun sid => ?_, ?_, fun czid hz => ⟨?_, ?_⟩⟩
    · unfold ServerClient.list constSend
      simp only [hns, Bool.false_eq_true, if_false, hpe]
    · unfold ServerClient.get constSend
      simp only [hns, Bool.false_eq_true, if_false, hpe]
    · unfold ZoneClient.list constSend
      simp only [hns, Bool.false_eq_true, if_false, hpe]
    · unfold ZoneClient.get constSend
      rw [hz]
      simp only [hns, Bool.false_eq_true, if_false, hpe]
    · unfold ZoneClient.delete constSend
      rw [hz]
      simp only [hns, Bool.false_eq_true, if_false, hpe]
  · intro em hem
    refine ⟨?_, fun sid => ?_, ?_, fun czid hz => ⟨?_, ?_⟩⟩
    · unfold ServerClient.list constSend
      simp only [hns, Bool.false_eq_true, if_false, hem]
    · unfold ServerClient.get constSend
      simp only [hns, Bool.false_eq_true, if_false, hem]
    · unfold ZoneClient.list constSend
      simp only [hns, Bool.false_eq_true, if_false, hem]
    · unfold ZoneClient.get constSend
      rw [hz]
      simp only [hns, Bool.false_eq_true, if_false, hem]
    · unfold ZoneClient.delete constSend
      rw [hz]
      simp only [hns, Bool.false_eq_true, if_false, hem]

/-- Witness for the amended claim C4 at status 418: a parseable error body is
returned as the structured error by all five non-patch operations, an
unparseable one as a RequestError, and patch maps 418 to its raw code. -/
theorem unknown_status_dispatch_witness :
    statusIsSuccess 418 = false ∧
    ZoneClient.patch testZoneClient "example.com" ⟨[]⟩ (constSend resp418) =
      Outcome.err (Error.UnexpectedStatusCode 418) ∧
    ZoneClient.delete testZoneClient "example.com" (constSend resp418) =
      Outcome.err (Error.PowerDNS ⟨"teapot", none⟩) ∧
    ServerClient.get testServerClient "localhost" (constSend resp418) =
      Outcome.err (Error.PowerDNS ⟨"teapot", none⟩) ∧
    ZoneClient.get testZoneClient "example.com" (constSend resp418) =
      Outcome.err (Error.PowerDNS ⟨"teapot", none⟩) ∧
    ServerClient.list testServerClient (constSend ⟨418, none⟩) =
      Outcome.err (Error.RequestError (ReqwestError.decode "invalid json body")) := by
  have h := unknown_status_dispatch testZoneClient testServerClient
    "example.com" ⟨[]⟩ resp418 rfl
  have h2 := unknown_status_dispatch testZoneClient testServerClient
    "example.com" ⟨[]⟩ ⟨418, none⟩ rfl
  have hpe := h.2.1 ⟨"teapot", none⟩ rfl
  exact ⟨rfl,
         h.1 (by decide) (by decide) (by decide) (by decide) (by decide),
         (hpe.2.2.2 "example.com." rfl).2,
         hpe.2.1 "localhost",
         (hpe.2.2.2 "example.com." rfl).1,
         (h2.2.2 (ReqwestError.decode "invalid json body") rfl).1⟩

/-- Claim C5 counterexample: zone list on a transport failure panics instead
of returning a RequestError value. -/
theorem transport_failure_counterexample :
    ZoneClient.list testZoneClient failSend = Outcome.panic := rfl

/-- Zone patch never produces the DeserializeError variant, whatever the
transport returns. -/
theorem patch_no_deserialize_error (zc : ZoneClient) (zid : String)
    (z : PatchZone) (send : Transport) (m : String) :
    ZoneClient.patch zc zid z send ≠ Outcome.err (Error.DeserializeError m) := by
  unfold ZoneClient.patch
  split
  · simp
  · split
    · simp
    · split
      · split <;> simp
      · simp

/-- Zone list never produces the DeserializeError variant. -/
theorem zone_list_no_deserialize_error (zc : ZoneClient) (send : Transport)
    (m : String) :
    ZoneClient.list zc send ≠ Outcome.err (Error.DeserializeError m) := by
  unfold ZoneClient.list
  split
  · simp
  · split
    · split <;> simp
    · split <;> simp

/-- Zone get never produces the DeserializeError variant. -/
theorem zone_get_no_deserialize_error (zc : ZoneClient) (zid : String)
    (send : Transport) (m : String) :
    ZoneClient.get zc zid send ≠ Outcome.err (Error.DeserializeError m) := by
  unfold ZoneClient.get
  split
  · simp
  · split
    · simp
    · split
      · split <;> simp
      · split <;> simp

/-- Zone delete never produces the DeserializeError variant. -/
theorem zone_delete_no_deserialize_error (zc : ZoneClient) (zid : String)
    (send : Transport) (m : String) :
    ZoneClient.delete zc zid send ≠ Outcome.err (Error.DeserializeError m) := by
  unfold ZoneClient.delete
  split
  · simp
  · split
    · simp
    · split
      · simp
      · split <;> simp

/-- Server list never produces the DeserializeError variant. -/
theorem server_list_no_deserialize_error (sc : ServerClient)
    (send : Transport) (m : String) :
    ServerClient.list sc send ≠ Outcome.err (Error.DeserializeError m) := by
  unfold ServerClient.list
  split
  · simp
  · split
    · split <;> simp
    · split <;> simp

/-- Server get never produces the DeserializeError variant. -/
theorem server_get_no_deserialize_error (sc : ServerClient) (sid : String)
    (send : Transport) (m : String) :
    ServerClient.get sc sid send ≠ Outcome.err (Error.DeserializeError m) := by
  unfold ServerClient.get
  split
  · simp
  · split
    · split <;> simp
    · split <;> simp

/-- Claim C5 amended: transport-level failures are returned as RequestError
by patch alone; server list and get and zone list, get and delete unwrap the
send result and panic on transport failure. Success-path deserialization
failures are returned as RequestError by zone list and zone get but panic in
server list and server get; no operation ever produces the DeserializeError
variant, for any transport. -/
theorem failure_surfacing (zc : ZoneClient) (sc : ServerClient) (zid : String)
    (z : PatchZone) (e : ReqwestError) (resp : HttpResponse) :
    ZoneClient.patch zc zid z (fun _ => Except.error e) =
      Outcome.err (Error.RequestError e) ∧
    ZoneClient.list zc (fun _ => Except.error e) = Outcome.panic ∧
    ServerClient.list sc (fun _ => Except.error e) = Outcome.panic ∧
    (∀ sid, ServerClient.get sc sid (fun _ => Except.error e) = Outcome.panic) ∧
    (∀ czid, canonicalize_domain zid = Except.ok czid →
      ZoneClient.get zc zid (fun _ => Except.error e) = Outcome.panic ∧
      ZoneClient.delete zc zid (fun _ => Except.error e) = Outcome.panic) ∧
    (statusIsSuccess resp.status = true →
      (∀ em, resp.jsonAs (Json.asArr Server.decode) = Except.error em →
        ServerClient.list sc (constSend resp) = Outcome.panic) ∧
      (∀ sid em, resp.jsonAs Server.decode = Except.error em →
        ServerClient.get sc sid (constSend resp) = Outcome.panic) ∧
      (∀ em, resp.jsonAs (Json.asArr Zone.decode) = Except.error em →
        ZoneClient.list zc (constSend resp) =
          Outcome.err (Error.RequestError em)) ∧
      (∀ czid em, canonicalize_domain zid = Except.ok czid →
        resp.jsonAs Zone.decode = Except.error em →
        ZoneClient.get zc zid (constSend resp) =
          Outcome.err (Error.RequestError em))) ∧
    (∀ send m,
      ZoneClient.patch zc zid z send ≠
        Outcome.err (Error.DeserializeError m) ∧
      ZoneClient.list zc send ≠ Outcome.err (Error.DeserializeError m) ∧
      ZoneClient.get zc zid send ≠ Outcome.err (Error.DeserializeError m) ∧
      ZoneClient.delete zc zid send ≠ Outcome.err (Error.DeserializeError m) ∧
      ServerClient.list sc send ≠ Outcome.err (Error.DeserializeError m) ∧
      ∀ sid, ServerClient.get sc sid send ≠
        Outcome.err (Error.DeserializeError m)) := by
  refine ⟨rfl, rfl, rfl, fun sid => rfl, ?_, ?_, ?_⟩
  · intro czid hz
    unfold ZoneClient.get ZoneClient.delete
    rw [hz]
    exact ⟨rfl, rfl⟩
  · intro hsucc
    refine ⟨?_, ?_, ?_, ?_⟩
    · intro em hdec
      unfold ServerClient.list constSend
      simp only [hsucc, if_true, hdec]
    · intro sid em hdec
      unfold ServerClient.get constSend
      simp only [hsucc, if_true, hdec]
    · intro em hdec
      unfold ZoneClient.list constSend
      simp only [hsucc, if_true, hdec]
    · intro czid em hz hdec
      unfold ZoneClient.get constSend
      rw [hz]
      simp only [hsucc, if_true, hdec]
  · intro send m
    exact ⟨patch_no_deserialize_error zc zid z send m,
           zone_list_no_deserialize_error zc send m,
           zone_get_no_deserialize_error zc zid send m,
           zone_delete_no_deserialize_error zc zid send m,
           server_list_no_deserialize_error sc send m,
           fun sid => server_get_no_deserialize_error sc sid send m⟩

/-- Witness for the amended claim C5: a concrete connection failure, a
concrete 200 response whose body is not valid JSON exercising all four
success-path decode conjuncts, and one never-DeserializeError instance. -/
theorem failure_surfacing_witness :
    ZoneClient.patch testZoneClient "example.com" ⟨[]⟩
      (fun _ => Except.error (ReqwestError.connect "refused")) =
      Outcome.err (Error.RequestError (ReqwestError.connect "refused")) ∧
    ZoneClient.list testZoneClient
      (fun _ => Except.error (ReqwestError.connect "refused")) = Outcome.panic ∧
    ServerClient.get testServerClient "localhost"
      (fun _ => Except.error (ReqwestError.connect "refused")) = Outcome.panic ∧
    ServerClient.list testServerClient (constSend ⟨200, none⟩) = Outcome.panic ∧
    ServerClient.get testServerClient "localhost" (constSend ⟨200, none⟩) =
      Outcome.panic ∧
    ZoneClient.list testZoneClient (constSend ⟨200, none⟩) =
      Outcome.err (Error.RequestError (ReqwestError.decode "invalid json body")) ∧
    ZoneClient.get testZoneClient "example.com" (constSend ⟨200, none⟩) =
      Outcome.err (Error.RequestError (ReqwestError.decode "invalid json body")) ∧
    ZoneClient.patch testZoneClient "example.com" ⟨[]⟩ failSend ≠
      Outcome.err (Error.DeserializeError "boom") := by
  have h := failure_surfacing testZoneClient testServerClient "example.com"
    ⟨[]⟩ (ReqwestError.connect "refused") ⟨200, none⟩
  have hdec := h.2.2.2.2.2.1 rfl
  exact ⟨h.1, h.2.1, h.2.2.2.1 "localhost",
         hdec.1 (ReqwestError.decode "invalid json body") rfl,
         hdec.2.1 "localhost" (ReqwestError.decode "invalid json body") rfl,
         hdec.2.2.1 (ReqwestError.decode "invalid json body") rfl,
         hdec.2.2.2 "example.com." (ReqwestError.decode "invalid json body")
           rfl rfl,
         (h.2.2.2.2.2.2 failSend "boom").1⟩

/-- Claim C8: patch performs no canonicalization or validation of its zone id
argument: the string is interpolated verbatim into the request URL, and even
an input that canonicalize_domain rejects is sent to the server unchanged. -/
theorem patch_no_canonicalization (zc : ZoneClient) (zid : String)
    (z : PatchZone) :
    ZoneClient.patch zc zid z echoUrlSend =
      Outcome.err (Error.RequestError (ReqwestError.connect
        (zc.api_client.base_url ++ "/api/v1/servers/" ++
         zc.api_client.server_name ++ "/zones/" ++ zid))) ∧
    ZoneClient.patch zc "invalidtld.zzzzz" z (constSend resp204) =
      Outcome.ok () :=
  ⟨rfl, rfl⟩

/-- Claim C9: any 2xx status is treated as success by server list and get and
by zone list, get and delete, while patch succeeds only on exactly 204. -/
theorem success_any_2xx (zc : ZoneClient) (sc : ServerClient) (z : PatchZone)
    (s : Nat) (body : Option Json) (h1 : 200 ≤ s) (h2 : s ≤ 299) :
    ZoneClient.delete zc "example.com" (constSend ⟨s, body⟩) = Outcome.ok () ∧
    (∀ servers, HttpResponse.jsonAs ⟨s, body⟩ (Json.asArr Server.decode) =
        Except.ok servers →
      ServerClient.list sc (constSend ⟨s, body⟩) = Outcome.ok servers) ∧
    (∀ sv, HttpResponse.jsonAs ⟨s, body⟩ Server.decode = Except.ok sv →
      ServerClient.get sc "localhost" (constSend ⟨s, body⟩) = Outcome.ok sv) ∧
    (∀ zones, HttpResponse.jsonAs ⟨s, body⟩ (Json.asArr Zone.decode) =
        Except.ok zones →
      ZoneClient.list zc (constSend ⟨s, body⟩) = Outcome.ok zones) ∧
    (∀ zone, HttpResponse.jsonAs ⟨s, body⟩ Zone.decode = Except.ok zone →
      ZoneClient.get zc "example.com" (constSend ⟨s, body⟩) = Outcome.ok zone) ∧
    (s ≠ 204 → ZoneClient.patch zc "example.com" z (constSend ⟨s, body⟩) =
      Outcome.err (Error.UnexpectedStatusCode s)) := by
  have hsucc : statusIsSuccess s = true := by
    unfold statusIsSuccess
    simp only [Bool.and_eq_true, decide_eq_true_eq]
    omega
  refine ⟨?_, ?_, ?_, ?_, ?_, ?_⟩
  · unfold ZoneClient.delete constSend
    rw [show canonicalize_domain "example.com" = Except.ok "example.com." from rfl]
    simp only [hsucc, if_true]
  · intro servers hdec
    unfold ServerClient.list constSend
    simp only [hsucc, if_true, hdec]
  · intro sv hdec
    unfold ServerClient.get constSend
    simp only [hsucc, if_true, hdec]
  · intro zones hdec
    unfold ZoneClient.list constSend
    simp only [hsucc, if_true, hdec]
  · intro zone hdec
    unfold ZoneClient.get constSend
    rw [show canonicalize_domain "example.com" = Except.ok "example.com." from rfl]
    simp only [hsucc, if_true, hdec]
  · intro h204
    rw [patch_constSend]
    rw [if_neg (by simpa using h204), if_neg (by simp only [HttpResponse.status]; omega)]

/-- Witness for claim C9 at the status 201 with bodies that decode. -/
theorem success_any_2xx_witness :
    (200 ≤ 201 ∧ 201 ≤ 299) ∧
    ZoneClient.delete testZoneClient "example.com" (constSend ⟨201, none⟩) =
      Outcome.ok () ∧
    ServerClient.list testServerClient (constSend ⟨201, some (Json.arr [])⟩) =
      Outcome.ok [] ∧
    ZoneClient.get testZoneClient "example.com"
      (constSend ⟨201, some (Json.obj [])⟩) = Outcome.ok emptyZone ∧
    ZoneClient.patch testZoneClient "example.com" ⟨[]⟩ (constSend ⟨201, none⟩) =
      Outcome.err (Error.UnexpectedStatusCode 201) := by
  refine ⟨⟨by decide, by decide⟩, ?_, ?_, ?_, ?_⟩
  · exact (success_any_2xx testZoneClient testServerClient ⟨[]⟩ 201 none
      (by decide) (by decide)).1
  · exact (success_any_2xx testZoneClient testServerClient ⟨[]⟩ 201
      (some (Json.arr [])) (by decide) (by decide)).2.1 [] rfl
  · exact (success_any_2xx testZoneClient testServerClient ⟨[]⟩ 201
      (some (Json.obj [])) (by decide) (by decide)).2.2.2.2.1 emptyZone rfl
  · exact (success_any_2xx testZoneClient testServerClient ⟨[]⟩ 201 none
      (by decide) (by decide)).2.2.2.2.2 (by decide)

end PowerDNS
